import Mathlib

set_option maxRecDepth 40000
set_option maxHeartbeats 4000000

/- Shallow embedding of src/scripts/migrate_normalizers.py.
   File contents are modelled as List Char; the regular expressions of the
   script are unrolled into explicit scanning functions with the same
   leftmost-match, greedy-run semantics (all patterns used by the script are
   backtracking-free: every greedy run is followed by a literal that cannot
   start inside the run). -/

/- Python regex \s character class. -/
def isPyWs (c : Char) : Bool :=
  c == ' ' || c == '\t' || c == '\n' || c == '\r' || c == '\x0b' || c == '\x0c'

/- Python regex \w character class (ASCII fragment, enough for the inputs). -/
def isWordChar (c : Char) : Bool :=
  c.isAlphanum || c == '_'

/- Consume a literal at the head of the text, returning the rest. -/
def eatLit (pat c : List Char) : Option (List Char) :=
  if pat.isPrefixOf c then some (c.drop pat.length) else none

/- The length of the run of characters satisfying p at the head of the text,
   produced as a lazily peelable numeral. -/
def countWhile (p : Char → Bool) : List Char → Nat
  | [] => 0
  | a :: t => if p a then Nat.succ (countWhile p t) else 0

/- Match a sequence of literals separated by greedy whitespace runs, as in
   the script-s multi-part signature regexes, returning the number of
   characters consumed. -/
def chainWsCount : List (List Char) → List Char → Option Nat
  | [], _ => some 0
  | [p], c => if p.isPrefixOf c then some p.length else none
  | p :: q :: ps, c =>
    if p.isPrefixOf c then
      match chainWsCount (q :: ps) ((c.drop p.length).dropWhile isPyWs) with
      | none => none
      | some n => some (p.length + (countWhile isPyWs (c.drop p.length) + n))
    else none

/- Leftmost search: try the element matcher at every position, as re.search
   and re.finditer do. -/
def searchAux {α : Type} (m : List Char → Option α) : List Char → Nat → Option (Nat × α)
  | c, i =>
    match m c with
    | some a => some (i, a)
    | none =>
      match c with
      | [] => none
      | _ :: t => searchAux m t (Nat.succ i)

def searchPat {α : Type} (m : List Char → Option α) (c : List Char) : Option (Nat × α) :=
  searchAux m c 0

def matchLit (pat c : List Char) : Option Unit :=
  if pat.isPrefixOf c then some () else none

/- str.find over List Char. -/
def firstOccIdx (pat c : List Char) : Option Nat :=
  (searchPat (matchLit pat) c).map (fun p => p.1)

/- The membership operator of Python over strings. -/
def containsSub (pat c : List Char) : Bool :=
  (firstOccIdx pat c).isSome

/- str.replace: replace every non-overlapping occurrence, left to right. The
   first list is fuel bounding the number of replacements; the original text
   serves as fuel, whose length no occurrence count can exceed. -/
def replaceAllAux (old new : List Char) : List Char → List Char → List Char
  | [], c => c
  | _ :: fuelT, c =>
    match firstOccIdx old c with
    | none => c
    | some i => c.take i ++ new ++ replaceAllAux old new fuelT (c.drop (i + old.length))

def replaceAll (old new c : List Char) : List Char :=
  replaceAllAux old new c c

/- str.replace with count 1. -/
def replaceFirst (old new c : List Char) : List Char :=
  match firstOccIdx old c with
  | none => c
  | some i => c.take i ++ new ++ c.drop (i + old.length)

/- ----- Pattern matchers of migrate_normalizer_file ----- -/

/- The pieces of the normalize() signature regex (script lines 53-61). -/
def sigLitA : List Char := "fn normalize(".data

def sigLitB : List Char := "&self,".data

def sigLitC : List Char := "raw_response: serde_json::Value,".data

def sigLitD : List Char := "account: &str,".data

def sigLitE : List Char := "region: &str,".data

def sigLitF : List Char := "query_timestamp: DateTime<Utc>,".data

def sigLitRet : List Char := ") -> Result<ResourceEntry> \x7b".data

def sigLitClose : List Char := ")".data

/- normalize_pattern: literals separated by \s*, ending at the opening brace. -/
def matchNormalizeSig (c : List Char) : Option Nat :=
  chainWsCount [sigLitA, sigLitB, sigLitC, sigLitD, sigLitE, sigLitF, sigLitRet] c

/- The signature regex used by re.sub on the async copy (script lines 168-172):
   same literals but stopping at the closing parenthesis. -/
def matchSyncSigShort (c : List Char) : Option Nat :=
  chainWsCount [sigLitA, sigLitB, sigLitC, sigLitD, sigLitE, sigLitF, sigLitClose] c

/- tags_pattern (script line 72): a captured \s+ run then the literal statement. -/
def tagsLit : List Char := "let tags = extract_tags(&raw_response);".data

def matchTagsAt (c : List Char) : Option (Nat × List Char) :=
  match c with
  | [] => none
  | a :: _ =>
    if isPyWs a then
      if tagsLit.isPrefixOf (c.drop (countWhile isPyWs c)) then
        some (countWhile isPyWs c + tagsLit.length, c.takeWhile isPyWs)
      else none
    else none

/- resource_id_pattern (script line 84): let (\w+) = raw_response. -/
def idLitA : List Char := "let ".data

def idLitB : List Char := " = raw_response".data

def matchIdAt (c : List Char) : Option (List Char) :=
  if idLitA.isPrefixOf c then
    let r := c.drop idLitA.length
    let w := r.takeWhile isWordChar
    if w.length == 0 then none
    else if idLitB.isPrefixOf (r.drop w.length) then some w
    else none
  else none

/- resource_type_pattern (script line 93). -/
def typeLit : List Char := "fn resource_type(&self) -> &\x27static str \x7b".data

def matchTypeAt (c : List Char) : Option (List Char) :=
  match eatLit typeLit c with
  | none => none
  | some r =>
    match r.dropWhile isPyWs with
    | [] => none
    | q :: rest =>
      if q == '"' then
        let t := rest.takeWhile (fun ch => ch != '"')
        if t.length == 0 then none
        else
          match rest.drop t.length with
          | [] => none
          | q2 :: _ => if q2 == '"' then some t else none
      else none

/- ----- Block locator (script lines 37-38) ----- -/

structure MatchInfo where
  start : Nat
  mname : List Char
deriving DecidableEq, Repr

def headerLit : List Char := "impl ResourceNormalizer for ".data

def normSuffix : List Char := "Normalizer".data

def headerTail : List Char := " \x7b".data

/- One candidate of the header regex impl ResourceNormalizer for (\w+Normalizer) \x7b:
   the greedy \w+ run must end in the Normalizer suffix and be followed by the
   space and opening brace. -/
def headerMatchAt (c : List Char) : Option (Nat × List Char) :=
  if headerLit.isPrefixOf c then
    let r := c.drop headerLit.length
    let w := r.takeWhile isWordChar
    if normSuffix.length + 1 ≤ w.length then
      if normSuffix.isSuffixOf w then
        if headerTail.isPrefixOf (r.drop w.length) then
          some (headerLit.length + w.length + headerTail.length, w)
        else none
      else none
    else none
  else none

/- One re.finditer step: the leftmost header match at or after the current
   position, together with the resume position and the remaining text. -/
def findScan : List Char → Nat → Option (Nat × List Char × Nat × List Char)
  | [], i =>
    match headerMatchAt [] with
    | some (len, w) => some (i, w, i + len, List.drop len [])
    | none => none
  | a :: t, i =>
    match headerMatchAt (a :: t) with
    | some (len, w) => some (i, w, i + len, (a :: t).drop len)
    | none => findScan t (Nat.succ i)

/- re.finditer: scan left to right, resuming after each match. The first list
   is fuel bounding the number of matches; the whole text serves as fuel,
   whose length no match count can exceed. -/
def findAux : List Char → List Char → Nat → List MatchInfo
  | [], _, _ => []
  | _ :: fuelT, c, i =>
    match findScan c i with
    | none => []
    | some (s, w, i2, rest) => ⟨s, w⟩ :: findAux fuelT rest i2

def findMatches (c : List Char) : List MatchInfo := findAux c c 0

/- ----- Balanced-delimiter block scan (script lines 136-148) ----- -/

/- Returns the length of the block from the given position through the brace
   that first returns the count to zero after an opening brace was seen; the
   zero test is made only in the closing-brace branch, exactly as the script
   does. None models the loop running off the end with impl_end never set. -/
def braceAux : List Char → Int → Bool → Nat → Option Nat
  | [], _, _, _ => none
  | ch :: t, count, found, i =>
    if ch == '\x7b' then braceAux t (count + 1) true (Nat.succ i)
    else if ch == '\x7d' then
      if found && (count - 1 == 0) then some (Nat.succ i)
      else braceAux t (count - 1) found (Nat.succ i)
    else braceAux t count found (Nat.succ i)

def braceScan (c : List Char) : Option Nat := braceAux c 0 false 0

/- ----- Rewrite synthesizer (script lines 101-183) ----- -/

/- The fetch call of the generated statement (script line 104). -/
def fetchCallText (rtype rid : List Char) : List Char :=
  ".fetch_tags_for_resource(\"".data ++ rtype ++ "\", &".data ++ rid
    ++ ", account, region)".data

/- The warning statement of the recovery clause (script line 107). -/
def warnText (rtype rid : List Char) : List Char :=
  "tracing::warn!(\"Failed to fetch tags for ".data ++ rtype
    ++ " \x7b\x7d: \x7b\x7d\", ".data ++ rid ++ ", e);".data

/- async_tags_code (script lines 102-109). The captured indentation group
   includes the newline that precedes the statement, so it is reproduced in
   front of every generated line exactly as the f-string renders it. -/
def asyncTagsCode (indent rtype rid : List Char) : List Char :=
  indent ++ "// Fetch tags asynchronously from AWS API with caching".data
    ++ "\n".data ++ indent ++ "let tags = aws_client".data
    ++ "\n".data ++ indent ++ "    ".data ++ fetchCallText rtype rid
    ++ "\n".data ++ indent ++ "    .await".data
    ++ "\n".data ++ indent ++ "    .unwrap_or_else(|e| \x7b".data
    ++ "\n".data ++ indent ++ "        ".data ++ warnText rtype rid
    ++ "\n".data ++ indent ++ "        ".data ++ "Vec::new()".data
    ++ "\n".data ++ indent ++ "    \x7d);".data

/- The needle used to re-locate the impl (script line 127): no trailing brace. -/
def implNeedle (name : List Char) : List Char := headerLit ++ name

/- Replacement header for the async copy (script lines 161-165). -/
def asyncHeaderOf (name : List Char) : List Char :=
  "#[async_trait]\nimpl AsyncResourceNormalizer for ".data ++ name

/- Replacement text of the re.sub on the signature (script line 170). -/
def asyncSigRepl : List Char :=
  "async fn normalize(\n        &self,\n        raw_response: serde_json::Value,\n        account: &str,\n        region: &str,\n        query_timestamp: DateTime<Utc>,\n        aws_client: &AWSResourceClient,\n    )".data

/- re.sub: replace every non-overlapping leftmost occurrence; the first list
   is fuel bounding the number of replacements as above. -/
def resubAux (repl : List Char) : List Char → List Char → List Char
  | [], c => c
  | _ :: fuelT, c =>
    match searchPat matchSyncSigShort c with
    | none => c
    | some (i, len) => c.take i ++ repl ++ resubAux repl fuelT (c.drop (i + len))

def resubSync (repl c : List Char) : List Char := resubAux repl c c

/- The async copy of the original impl (script lines 158-172). -/
def asyncImplOf (name originalImpl : List Char) : List Char :=
  resubSync asyncSigRepl (replaceFirst (implNeedle name) (asyncHeaderOf name) originalImpl)

/- sync_impl_comment (script lines 175-178). -/
def deprecationBanner : List Char :=
  "// Temporary: Keep old sync implementation for compatibility during migration\n// This will be removed once all normalizers are migrated and query_resources is updated\n#[allow(deprecated)]\n".data

/- The local-fallback line swapped into the retained sync impl (script line 183). -/
def fallbackLine (indent : List Char) : List Char :=
  indent ++ "let tags = extract_tags(&raw_response); // Fallback to local extraction for sync path".data

/- modified_impl (script lines 181-183). -/
def modifiedImplOf (name indent code originalImpl : List Char) : List Char :=
  asyncImplOf name originalImpl ++ "\n\n".data ++ deprecationBanner
    ++ replaceAll code (fallbackLine indent) originalImpl

/- ----- Per-match processing (script lines 47-185) ----- -/

/- One diagnostic or outcome per processed match, mirroring the prints of the
   loop body; migratedOk records a match that reached the final splice (the
   script prints nothing for it but returns to the loop with content updated). -/
inductive Note
  | warnNoNormalize (name : List Char)
  | warnNoTags (name : List Char)
  | warnNoId (name : List Char)
  | warnNoType (name : List Char)
  | errLostTrack (name : List Char)
  | errUnbalanced (name : List Char)
  | migratedOk (name : List Char)
deriving DecidableEq, Repr

/- content[start_pos:start_pos + 5000] (script line 64). -/
def implWindow (c : List Char) (s : Nat) : List Char := (c.drop s).take 5000

/- Splicing a replacement over the span [a, b) of the buffer. -/
def splice (c : List Char) (a b : Nat) (rep : List Char) : List Char :=
  c.take a ++ rep ++ c.drop b

/- The body of the per-match loop (script lines 47-185). The unused
   updated_impl_section binding of script line 133 has no effect on the
   result and is not modelled. -/
def processOne (c : List Char) (m : MatchInfo) : List Char × Note :=
  match searchPat matchNormalizeSig (implWindow c m.start) with
  | none => (c, Note.warnNoNormalize m.mname)
  | some _ =>
    match searchPat matchTagsAt (implWindow c m.start) with
    | none => (c, Note.warnNoTags m.mname)
    | some (tStart, tLen, indent) =>
      match searchPat matchIdAt ((c.take (m.start + tStart)).drop m.start) with
      | none => (c, Note.warnNoId m.mname)
      | some (_, rid) =>
        match searchPat matchTypeAt (implWindow c m.start) with
        | none => (c, Note.warnNoType m.mname)
        | some (_, rtype) =>
          let code := asyncTagsCode indent rtype rid
          let c2 := splice c (m.start + tStart) (m.start + tStart + tLen) code
          match firstOccIdx (implNeedle m.mname) c2 with
          | none => (c2, Note.errLostTrack m.mname)
          | some ip =>
            match braceScan (c2.drop ip) with
            | none => (c2, Note.errUnbalanced m.mname)
            | some blockLen =>
              (splice c2 ip (ip + blockLen)
                 (modifiedImplOf m.mname indent code ((c2.drop ip).take blockLen)),
               Note.migratedOk m.mname)

/- ----- Import insertion, step 1 (script lines 21-33) ----- -/

def asyncImportLine : List Char := "use async_trait::async_trait;".data

def anyhowLine : List Char := "use anyhow::Result;".data

def chronoLine : List Char := "use chrono::\x7bDateTime, Utc\x7d;".data

def step1 (c : List Char) : List Char :=
  if containsSub asyncImportLine c then c
  else if containsSub anyhowLine c then
    replaceAll anyhowLine (anyhowLine ++ "\n".data ++ asyncImportLine) c
  else if containsSub chronoLine c then
    replaceAll chronoLine (asyncImportLine ++ "\n".data ++ chronoLine) c
  else c

/- ----- Whole-file driver (script lines 14-194) ----- -/

/- The final per-file print: no-matches early return, the changed case, or the
   no-changes case. -/
inductive Report
  | noMatchesFound
  | migratedMsg (n : Nat)
  | noChangesNeeded
deriving DecidableEq, Repr

structure FileResult where
  content : List Char
  writeBack : Bool
  notes : List Note
  report : Report
deriving DecidableEq, Repr

def stepFold (acc : List Char × List Note) (m : MatchInfo) : List Char × List Note :=
  (  (processOne acc.1 m).1, acc.2 ++ [(processOne acc.1 m).2])

/- migrate_normalizer_file: content is the in-memory buffer at return time;
   writeBack is the boolean return value, true exactly when the file is
   rewritten on disk. -/
def migrateFile (c0 : List Char) : FileResult :=
  let c1 := step1 c0
  let ms := findMatches c1
  if ms.isEmpty then ⟨c1, false, [], Report.noMatchesFound⟩
  else
    let p := ms.reverse.foldl stepFold (c1, [])
    if p.1 == c0 then ⟨p.1, false, p.2, Report.noChangesNeeded⟩
    else ⟨p.1, true, p.2, Report.migratedMsg ms.length⟩

def isMigratedNote : Note → Bool
  | Note.migratedOk _ => true
  | _ => false

def countMigrated (ns : List Note) : Nat := (ns.filter isMigratedNote).length

def countNl (c : List Char) : Nat := (c.filter (fun ch => ch == '\n')).length

/- ----- main (script lines 197-213) ----- -/

structure MainResult where
  exit : Nat
  migrated : Nat
  errors : Nat
deriving DecidableEq, Repr

/- The file loop: a missing file prints an error and is skipped; an existing
   file adds one to the migrated count when migrate_normalizer_file returns
   true. The loop itself never changes the exit status. -/
def mainLoop : List (Option (List Char)) → Nat × Nat
  | [] => (0, 0)
  | none :: rest =>
    ((mainLoop rest).1, (mainLoop rest).2 + 1)
  | some c :: rest =>
    ((mainLoop rest).1 + (if (migrateFile c).writeBack then 1 else 0), (mainLoop rest).2)

/- main: exits 1 only when no file arguments are given; otherwise the process
   falls off the end of main and exits 0 regardless of missing files. -/
def mainRun (files : List (Option (List Char))) : MainResult :=
  if files = [] then ⟨1, 0, 0⟩
  else ⟨0, (mainLoop files).1, (mainLoop files).2⟩

/- ----- Concrete inputs used by the concrete theorems ----- -/

def fooName : List Char := "FooNormalizer".data

def alphaName : List Char := "AlphaNormalizer".data

def betaName : List Char := "BetaNormalizer".data

/- A minimal well-formed normalizer file. -/
def srcFoo : String := "use anyhow::Result;\nuse chrono::\x7bDateTime, Utc\x7d;\n\nimpl ResourceNormalizer for FooNormalizer \x7b\n    fn resource_type(&self) -> &\x27static str \x7b\n        \"AWS::Foo::Bar\"\n    \x7d\n\n    fn normalize(\n        &self,\n        raw_response: serde_json::Value,\n        account: &str,\n        region: &str,\n        query_timestamp: DateTime<Utc>,\n    ) -> Result<ResourceEntry> \x7b\n        let foo_id = raw_response.to_string();\n        let tags = extract_tags(&raw_response);\n        Ok(entry)\n    \x7d\n\x7d\n"

/- Two normalizers: Alpha is well formed, Beta lacks the resource_type accessor. -/
def srcAlphaBeta : String := "use anyhow::Result;\n\nimpl ResourceNormalizer for AlphaNormalizer \x7b\n    fn resource_type(&self) -> &\x27static str \x7b\n        \"AWS::Alpha::One\"\n    \x7d\n\n    fn normalize(\n        &self,\n        raw_response: serde_json::Value,\n        account: &str,\n        region: &str,\n        query_timestamp: DateTime<Utc>,\n    ) -> Result<ResourceEntry> \x7b\n        let alpha_id = raw_response.to_string();\n        let tags = extract_tags(&raw_response);\n        Ok(entry)\n    \x7d\n\x7d\n\nimpl ResourceNormalizer for BetaNormalizer \x7b\n    fn normalize(\n        &self,\n        raw_response: serde_json::Value,\n        account: &str,\n        region: &str,\n        query_timestamp: DateTime<Utc>,\n    ) -> Result<ResourceEntry> \x7b\n        let beta_id = raw_response.to_string();\n        let tags = extract_tags(&raw_response);\n        Ok(entry)\n    \x7d\n\x7d\n"

/- A well-formed block except that the impl-closing brace is missing, so the
   delimiter count never returns to zero. The async import is already present
   so the import step leaves the buffer untouched. -/
def srcUnbalanced : String := "use async_trait::async_trait;\nuse anyhow::Result;\n\nimpl ResourceNormalizer for FooNormalizer \x7b\n    fn resource_type(&self) -> &\x27static str \x7b\n        \"AWS::Foo::Bar\"\n    \x7d\n\n    fn normalize(\n        &self,\n        raw_response: serde_json::Value,\n        account: &str,\n        region: &str,\n        query_timestamp: DateTime<Utc>,\n    ) -> Result<ResourceEntry> \x7b\n        let foo_id = raw_response.to_string();\n        let tags = extract_tags(&raw_response);\n        Ok(entry)\n    \x7d\n"

/- Anyhow anchor present, no normalizer implementations at all. -/
def srcNoImpl : String := "use anyhow::Result;\n\nfn main() \x7b\x7d\n"

/- One block whose tag-extraction statement is absent; the anyhow anchor is
   present and the async import is not. -/
def srcNoTags : String := "use anyhow::Result;\n\nimpl ResourceNormalizer for FooNormalizer \x7b\n    fn resource_type(&self) -> &\x27static str \x7b\n        \"AWS::Foo::Bar\"\n    \x7d\n\n    fn normalize(\n        &self,\n        raw_response: serde_json::Value,\n        account: &str,\n        region: &str,\n        query_timestamp: DateTime<Utc>,\n    ) -> Result<ResourceEntry> \x7b\n        let foo_id = raw_response.to_string();\n        let tags = Vec::new();\n        Ok(entry)\n    \x7d\n\x7d\n"

/- A block whose resource_type accessor sits beyond the 5000-character window:
   header, signature, tags statement and id binding come first, then 5000
   spaces of body, then the accessor. -/
def src10a : String := "impl ResourceNormalizer for FooNormalizer \x7b\n    fn normalize(\n        &self,\n        raw_response: serde_json::Value,\n        account: &str,\n        region: &str,\n        query_timestamp: DateTime<Utc>,\n    ) -> Result<ResourceEntry> \x7b\n        let foo_id = raw_response.to_string();\n        let tags = extract_tags(&raw_response);\n"

def src10b : String := "\n        Ok(entry)\n    \x7d\n\n    fn resource_type(&self) -> &\x27static str \x7b\n        \"AWS::Foo::Bar\"\n    \x7d\n\x7d\n"

def farType : List Char := src10a.data ++ List.replicate 5000 ' ' ++ src10b.data

/- A tiny buffer for witnesses: normalize signature, id binding and tags
   statement present, resource_type absent. -/
def srcW10 : String := "fn normalize(\n&self,\nraw_response: serde_json::Value,\naccount: &str,\nregion: &str,\nquery_timestamp: DateTime<Utc>,\n) -> Result<ResourceEntry> \x7b\nlet qq_id = raw_response\n let tags = extract_tags(&raw_response);\n"

/- ----- Derived concrete values for srcFoo (offsets checked by evaluation in
   the theorems below: the match starts at 80, the tags span is [439, 487),
   the impl is re-found at 80 and the balanced block is 753 characters) ----- -/

def indentFoo : List Char := "\n        ".data

def codeFoo : List Char := asyncTagsCode indentFoo "AWS::Foo::Bar".data "foo_id".data

def c1Foo : List Char := step1 srcFoo.data

def mFoo : MatchInfo := ⟨80, fooName⟩

def c2Foo : List Char := splice c1Foo 439 487 codeFoo

def origImplFoo : List Char := (c2Foo.drop 80).take 753

def fooRun1 : FileResult := migrateFile srcFoo.data

def fooRun2 : FileResult := migrateFile fooRun1.content

/- The duplicated trailing comment produced when the fallback statement of an
   already-migrated sync block is rewritten a second time. -/
def doubledFallback : List Char :=
  "// Fallback to local extraction for sync path // Fallback to local extraction for sync path".data

def barName : List Char := "BarNormalizer".data

/- A file whose leading comment mentions the Bar impl-header text: the
   whole-buffer find of that needle lands on the comment, before the earlier
   Foo match, when the later Bar match is processed. -/
def src7 : String := "use async_trait::async_trait;\n// impl ResourceNormalizer for BarNormalizer is declared below\n\nimpl ResourceNormalizer for FooNormalizer \x7b\n    fn resource_type(&self) -> &\x27static str \x7b\n        \"AWS::Foo::Bar\"\n    \x7d\n\n    fn normalize(\n        &self,\n        raw_response: serde_json::Value,\n        account: &str,\n        region: &str,\n        query_timestamp: DateTime<Utc>,\n    ) -> Result<ResourceEntry> \x7b\n        let foo_id = raw_response.to_string();\n        let tags = extract_tags(&raw_response);\n        Ok(entry)\n    \x7d\n\x7d\n\nimpl ResourceNormalizer for BarNormalizer \x7b\n    fn resource_type(&self) -> &\x27static str \x7b\n        \"AWS::Bar::Baz\"\n    \x7d\n\n    fn normalize(\n        &self,\n        raw_response: serde_json::Value,\n        account: &str,\n        region: &str,\n        query_timestamp: DateTime<Utc>,\n    ) -> Result<ResourceEntry> \x7b\n        let bar_id = raw_response.to_string();\n        let tags = extract_tags(&raw_response);\n        Ok(entry)\n    \x7d\n\x7d\n"

theorem headerMatchAt_nil : headerMatchAt [] = none := rfl

theorem headerMatchAt_len_pos {c : List Char} {len : Nat} {w : List Char}
    (h : headerMatchAt c = some (len, w)) : 1 ≤ len := by
  simp only [headerMatchAt] at h
  split at h
  · split at h
    · split at h
      · split at h
        · injection h with h1
          have h2 : headerTail.length = 2 := rfl
          have h3 := congrArg Prod.fst h1
          simp at h3
          omega
        · exact absurd h (by simp)
      · exact absurd h (by simp)
    · exact absurd h (by simp)
  · exact absurd h (by simp)

theorem findScan_bounds : ∀ (c : List Char) (i s i2 : Nat) (w rest : List Char),
    findScan c i = some (s, w, i2, rest) → i ≤ s ∧ s < i2 := by
  intro c
  induction c with
  | nil =>
    intro i s i2 w rest h
    simp [findScan, headerMatchAt_nil] at h
  | cons a t ih =>
    intro i s i2 w rest h
    rw [findScan] at h
    cases hh : headerMatchAt (a :: t) with
    | some p =>
      obtain ⟨len, w2⟩ := p
      rw [hh] at h
      simp only [Option.some.injEq, Prod.mk.injEq] at h
      obtain ⟨hs, hw, hi2, hrest⟩ := h
      have h3 := headerMatchAt_len_pos hh
      omega
    | none =>
      rw [hh] at h
      have := ih (Nat.succ i) s i2 w rest h
      omega

theorem findAux_cons (x : Char) (ft c : List Char) (i : Nat) :
    findAux (x :: ft) c i =
      match findScan c i with
      | none => []
      | some (s, w, i2, rest) => ⟨s, w⟩ :: findAux ft rest i2 := rfl

theorem findAux_start_le : ∀ (fuel c : List Char) (i : Nat) (m : MatchInfo),
    m ∈ findAux fuel c i → i ≤ m.start := by
  intro fuel
  induction fuel with
  | nil => intro c i m h; simp [findAux] at h
  | cons x ft ih =>
    intro c i m h
    rw [findAux_cons] at h
    cases hh : findScan c i with
    | some p =>
      obtain ⟨s, w, i2, rest⟩ := p
      rw [hh] at h
      have hb := findScan_bounds c i s i2 w rest hh
      simp only [List.mem_cons] at h
      rcases h with h1 | h1
      · subst h1
        show i ≤ s
        omega
      · have := ih _ _ _ h1
        omega
    | none =>
      rw [hh] at h
      simp at h

theorem findAux_chain : ∀ (fuel c : List Char) (i : Nat),
    List.Chain' (· < ·) ((findAux fuel c i).map MatchInfo.start) := by
  intro fuel
  induction fuel with
  | nil => intro c i; simp [findAux]
  | cons x ft ih =>
    intro c i
    rw [findAux_cons]
    cases hh : findScan c i with
    | some p =>
      obtain ⟨s, w, i2, rest⟩ := p
      rw [List.map_cons]
      refine List.chain'_cons'.mpr ⟨?_, ih _ _⟩
      intro y hy
      have hy2 := List.mem_of_mem_head? hy
      obtain ⟨m0, hm0, rfl⟩ := List.mem_map.mp hy2
      have h1 := findAux_start_le ft rest i2 m0 hm0
      have h2 := findScan_bounds c i s i2 w rest hh
      show s < m0.start
      omega
    | none => simp

theorem replaceAll_has_new (old new c : List Char) (i : Nat)
    (hold : old ≠ []) (h : firstOccIdx old c = some i) :
    ∃ pre post, replaceAll old new c = pre ++ new ++ post := by
  cases c with
  | nil =>
    exfalso
    cases old with
    | nil => exact hold rfl
    | cons a t =>
      simp [firstOccIdx, searchPat, searchAux, matchLit, List.isPrefixOf] at h
  | cons x xs =>
    refine ⟨(x :: xs).take i,
      replaceAllAux old new xs ((x :: xs).drop (i + old.length)), ?_⟩
    rw [replaceAll]
    simp only [replaceAllAux, h]

theorem findAux_none : ∀ (fuel c : List Char) (i : Nat),
    findScan c i = none → findAux fuel c i = [] := by
  intro fuel c i h
  cases fuel with
  | nil => rfl
  | cons x ft => rw [findAux_cons, h]

theorem findAux_step (fuel c : List Char) (i : Nat) (s : Nat) (w : List Char)
    (i2 : Nat) (rest : List Char) (hf : fuel ≠ [])
    (h : findScan c i = some (s, w, i2, rest)) :
    findAux fuel c i = ⟨s, w⟩ :: findAux fuel.tail rest i2 := by
  cases fuel with
  | nil => exact absurd rfl hf
  | cons x ft => rw [findAux_cons, h]; rfl

theorem mainLoop_spec : ∀ fs : List (Option (List Char)),
    mainLoop fs
      = (((fs.filterMap id).filter (fun c => (migrateFile c).writeBack)).length,
         (fs.filter Option.isNone).length) := by
  intro fs
  induction fs with
  | nil => rfl
  | cons hd tl ih =>
    cases hd with
    | none =>
      simp only [mainLoop, ih, List.filterMap_cons, List.filter_cons]
      simp
    | some c =>
      cases hw : (migrateFile c).writeBack with
      | true =>
        simp only [mainLoop, ih, List.filterMap_cons, List.filter_cons, hw]
        simp [List.filter_cons, hw]
      | false =>
        simp only [mainLoop, ih, List.filterMap_cons, List.filter_cons, hw]
        simp [List.filter_cons, hw]

/-- Counterexample to claim C7 as stated: in src7 a leading comment contains
the Bar impl-header needle text, so when the later match (Bar, at 529) is
processed, the whole-buffer find of the needle lands at offset 33, the brace
scan swallows the Foo block, and the splice rewrites the buffer prefix below
the not-yet-processed earlier match-s recorded start 94 — after the splice no
implementation header stands at offset 94 any more. -/
theorem C7_offset_invalidation_cex :
    findMatches src7.data = [⟨94, fooName⟩, ⟨529, barName⟩]
    ∧ step1 src7.data = src7.data
    ∧ firstOccIdx (implNeedle barName) src7.data = some 33
    ∧ (processOne src7.data ⟨529, barName⟩).2 = Note.migratedOk barName
    ∧ (processOne src7.data ⟨529, barName⟩).1.take 94 ≠ src7.data.take 94
    ∧ headerMatchAt ((processOne src7.data ⟨529, barName⟩).1.drop 94) = none :=
  ⟨by decide, eq_of_beq (by rfl), by rfl, by decide,
   ne_of_beq_false (by rfl), by rfl⟩

/-- Claim C7 (amended): matches are processed in strictly descending order of
their start offsets (the reverse of the strictly ascending discovery order),
and a splice performed at an offset no smaller than an earlier match-s start
leaves the buffer prefix up to that start unchanged; but the modified-impl
splice position is the first whole-buffer occurrence of the impl-header
needle, which can lie before an earlier match (a comment or duplicate header
mentioning the needle text), and then processing the later match does change
the prefix below the earlier match-s recorded offset, invalidating it, as the
src7 conjunct shows. -/
theorem C7_order_with_invalidation :
    (∀ c : List Char, List.Chain' (· < ·) ((findMatches c).map MatchInfo.start))
    ∧ (∀ c : List Char, List.Chain' (· > ·) (((findMatches c).reverse).map MatchInfo.start))
    ∧ (∀ (c rep : List Char) (a b s : Nat), s ≤ a → a ≤ c.length →
        (splice c a b rep).take s = c.take s)
    ∧ (processOne src7.data ⟨529, barName⟩).1.take 94 ≠ src7.data.take 94 := by
  refine ⟨fun c => findAux_chain _ _ _, fun c => ?_,
    fun c rep a b s hsa hac => ?_, ne_of_beq_false (by rfl)⟩
  · rw [List.map_reverse]
    exact List.chain'_reverse.mpr (findAux_chain _ _ _)
  · unfold splice
    have hlen : s ≤ (c.take a).length := by
      simp only [List.length_take]
      omega
    rw [List.append_assoc, List.take_append_of_le_length hlen, List.take_take,
      Nat.min_eq_left hsa]

/-- Witness for C7 (amended): a concrete splice at offset 1 preserves the
prefix of length 1. -/
theorem C7_order_with_invalidation_witness :
    (splice "ab".data 1 1 "X".data).take 1 = "ab".data.take 1 :=
  C7_order_with_invalidation.2.2.1 "ab".data "X".data 1 1 1 (Nat.le_refl 1) (by decide)

/-- Claim C6: for every migrated match, the synthesized replacement for the
tag-extraction statement contains a call to fetch_tags_for_resource taking the
type-tag literal, the resource-identifier variable, account and region, and a
recovery clause whose warning statement mentions the type tag and the
identifier and which yields an empty tag collection. -/
theorem C6_async_fetch_shape : ∀ indent rtype rid : List Char,
    fetchCallText rtype rid <:+: asyncTagsCode indent rtype rid
    ∧ rtype <:+: fetchCallText rtype rid
    ∧ rid <:+: fetchCallText rtype rid
    ∧ warnText rtype rid <:+: asyncTagsCode indent rtype rid
    ∧ rtype <:+: warnText rtype rid
    ∧ rid <:+: warnText rtype rid
    ∧ "    .unwrap_or_else(|e| \x7b".data <:+: asyncTagsCode indent rtype rid
    ∧ "Vec::new()".data <:+: asyncTagsCode indent rtype rid := by
  intro indent rtype rid
  refine ⟨?_, ?_, ?_, ?_, ?_, ?_, ?_, ?_⟩
  · exact ⟨indent ++ "// Fetch tags asynchronously from AWS API with caching".data
      ++ "\n".data ++ indent ++ "let tags = aws_client".data ++ "\n".data ++ indent
      ++ "    ".data,
      "\n".data ++ indent ++ "    .await".data ++ "\n".data ++ indent
      ++ "    .unwrap_or_else(|e| \x7b".data ++ "\n".data ++ indent ++ "        ".data
      ++ warnText rtype rid ++ "\n".data ++ indent ++ "        ".data
      ++ "Vec::new()".data ++ "\n".data ++ indent ++ "    \x7d);".data,
      by simp [asyncTagsCode, List.append_assoc]⟩
  · exact ⟨".fetch_tags_for_resource(\"".data,
      "\", &".data ++ rid ++ ", account, region)".data,
      by simp [fetchCallText, List.append_assoc]⟩
  · exact ⟨".fetch_tags_for_resource(\"".data ++ rtype ++ "\", &".data,
      ", account, region)".data,
      by simp [fetchCallText, List.append_assoc]⟩
  · exact ⟨indent ++ "// Fetch tags asynchronously from AWS API with caching".data
      ++ "\n".data ++ indent ++ "let tags = aws_client".data ++ "\n".data ++ indent
      ++ "    ".data ++ fetchCallText rtype rid ++ "\n".data ++ indent
      ++ "    .await".data ++ "\n".data ++ indent ++ "    .unwrap_or_else(|e| \x7b".data
      ++ "\n".data ++ indent ++ "        ".data,
      "\n".data ++ indent ++ "        ".data ++ "Vec::new()".data ++ "\n".data
      ++ indent ++ "    \x7d);".data,
      by simp [asyncTagsCode, List.append_assoc]⟩
  · exact ⟨"tracing::warn!(\"Failed to fetch tags for ".data,
      " \x7b\x7d: \x7b\x7d\", ".data ++ rid ++ ", e);".data,
      by simp [warnText, List.append_assoc]⟩
  · exact ⟨"tracing::warn!(\"Failed to fetch tags for ".data ++ rtype
      ++ " \x7b\x7d: \x7b\x7d\", ".data,
      ", e);".data,
      by simp [warnText, List.append_assoc]⟩
  · exact ⟨indent ++ "// Fetch tags asynchronously from AWS API with caching".data
      ++ "\n".data ++ indent ++ "let tags = aws_client".data ++ "\n".data ++ indent
      ++ "    ".data ++ fetchCallText rtype rid ++ "\n".data ++ indent
      ++ "    .await".data ++ "\n".data ++ indent,
      "\n".data ++ indent ++ "        ".data ++ warnText rtype rid ++ "\n".data
      ++ indent ++ "        ".data ++ "Vec::new()".data ++ "\n".data ++ indent
      ++ "    \x7d);".data,
      by simp [asyncTagsCode, List.append_assoc]⟩
  · exact ⟨indent ++ "// Fetch tags asynchronously from AWS API with caching".data
      ++ "\n".data ++ indent ++ "let tags = aws_client".data ++ "\n".data ++ indent
      ++ "    ".data ++ fetchCallText rtype rid ++ "\n".data ++ indent
      ++ "    .await".data ++ "\n".data ++ indent ++ "    .unwrap_or_else(|e| \x7b".data
      ++ "\n".data ++ indent ++ "        ".data ++ warnText rtype rid ++ "\n".data
      ++ indent ++ "        ".data,
      "\n".data ++ indent ++ "    \x7d);".data,
      by simp [asyncTagsCode, List.append_assoc]⟩

/-- Claim C2 (amended): a match skipped for a missing normalize method, missing
tag-extraction statement, missing resource-id binding or missing type-tag
literal leaves the whole buffer, and hence that block, byte-for-byte
unchanged; a match skipped for unbalanced delimiters or a lost header is not
covered, because those skips occur after the tag-extraction statement has
already been replaced. -/
theorem C2_structural_skip_unchanged :
    ∀ (c : List Char) (m : MatchInfo) (r : List Char) (o : Note),
    processOne c m = (r, o) →
    (o = Note.warnNoNormalize m.mname ∨ o = Note.warnNoTags m.mname
      ∨ o = Note.warnNoId m.mname ∨ o = Note.warnNoType m.mname) →
    r = c := by
  intro c m r o h hd
  unfold processOne at h
  split at h
  · injection h with h1 h2; exact h1.symm
  · split at h
    · injection h with h1 h2; exact h1.symm
    · split at h
      · injection h with h1 h2; exact h1.symm
      · split at h
        · injection h with h1 h2; exact h1.symm
        · dsimp only at h
          split at h
          · injection h with h1 h2
            subst h2
            rcases hd with h3 | h3 | h3 | h3 <;> simp at h3
          · split at h
            · injection h with h1 h2
              subst h2
              rcases hd with h3 | h3 | h3 | h3 <;> simp at h3
            · injection h with h1 h2
              subst h2
              rcases hd with h3 | h3 | h3 | h3 <;> simp at h3

/-- Witness for C2 (amended): the lemma applied to a concrete buffer whose
single block lacks the resource_type accessor, which is skipped with the
buffer unchanged. -/
theorem C2_structural_skip_unchanged_witness : srcW10.data = srcW10.data :=
  C2_structural_skip_unchanged srcW10.data ⟨0, fooName⟩ srcW10.data
    (Note.warnNoType fooName) (by decide) (Or.inr (Or.inr (Or.inr rfl)))

/-- Counterexample to claim C2 as stated: the unbalanced-delimiter skip of the
single match of srcUnbalanced leaves the block changed: the import step
changed nothing (the import is already present), no match was migrated, yet
the buffer now differs from the input and contains the asynchronous fetch
text. -/
theorem C2_skip_mutates_cex :
    (migrateFile srcUnbalanced.data).notes = [Note.errUnbalanced fooName]
    ∧ countMigrated (migrateFile srcUnbalanced.data).notes = 0
    ∧ step1 srcUnbalanced.data = srcUnbalanced.data
    ∧ (migrateFile srcUnbalanced.data).content ≠ srcUnbalanced.data
    ∧ containsSub ".fetch_tags_for_resource(".data
        (migrateFile srcUnbalanced.data).content = true :=
  ⟨by decide, by decide, eq_of_beq (by rfl), ne_of_beq_false (by rfl), by rfl⟩

/-- Counterexample to claim C1 as stated: the second run-s output buffer is
not byte-identical to its input. -/
theorem C1_idempotence_cex : fooRun2.content ≠ fooRun1.content :=
  ne_of_beq_false (by rfl)

/-- Claim C1 (amended): the second run re-matches the retained synchronous
block, whose fallback tag-extraction statement still matches the extraction
regex despite the trailing comment, so the block is migrated again, the
trailing fallback comment is duplicated, and the file is reported changed and
written a second time. -/
theorem C1_second_run_changes :
    fooRun2.writeBack = true
    ∧ fooRun2.notes = [Note.migratedOk fooName]
    ∧ containsSub doubledFallback fooRun2.content = true :=
  ⟨by decide, by decide, by rfl⟩

/-- Counterexample to claim C3 as stated: for srcAlphaBeta the per-file report
announces two migrated normalizers although only one match was successfully
migrated. -/
theorem C3_report_cex :
    (migrateFile srcAlphaBeta.data).report = Report.migratedMsg 2
    ∧ countMigrated (migrateFile srcAlphaBeta.data).notes = 1 :=
  ⟨by decide, by decide⟩

/-- Claim C3 (amended): the per-file report of a changed file states the count
of matches found, not the count successfully migrated; skipped matches are
visible only through their per-match warnings, as in the srcAlphaBeta run
where the Beta block is skipped with a warning naming its type, the Alpha
block is migrated, and the file is written. -/
theorem C3_report_counts_found :
    (∀ c : List Char, (migrateFile c).writeBack = true →
      (migrateFile c).report = Report.migratedMsg (findMatches (step1 c)).length)
    ∧ (migrateFile srcAlphaBeta.data).notes
        = [Note.warnNoType betaName, Note.migratedOk alphaName]
    ∧ (migrateFile srcAlphaBeta.data).writeBack = true := by
  refine ⟨?_, by decide, by decide⟩
  intro c h
  cases hE : (findMatches (step1 c)).isEmpty with
  | true =>
    simp only [migrateFile, hE, if_true] at h
    exact absurd h (by simp)
  | false =>
    simp only [migrateFile, hE, Bool.false_eq_true, if_false] at h ⊢
    split at h
    · exact absurd h (by simp)
    · next hc =>
      simp only [if_neg hc]

/-- Witness for C3 (amended): the report of the changed srcAlphaBeta run
equals the migrated message carrying the number of matches found. -/
theorem C3_report_counts_found_witness :
    (migrateFile srcAlphaBeta.data).report
      = Report.migratedMsg (findMatches (step1 srcAlphaBeta.data)).length :=
  C3_report_counts_found.1 srcAlphaBeta.data (by decide)

/-- Counterexample to claim C4 as stated: with one missing file and one
existing file, the missing file is reported and excluded, the other file is
still migrated, but the exit indication is zero, not nonzero. -/
theorem C4_exit_zero_cex :
    (mainRun [Option.none, some srcFoo.data]).exit = 0
    ∧ (mainRun [Option.none, some srcFoo.data]).errors = 1
    ∧ (mainRun [Option.none, some srcFoo.data]).migrated = 1 :=
  ⟨by decide, by decide, by decide⟩

/-- Claim C4 (amended): for every nonempty invocation, missing files are
counted as errors and excluded from the migrated count, every existing file
is still processed and counted when written, and the process exit status is
zero; a nonzero exit occurs only for an empty argument list. -/
theorem C4_driver_behavior : ∀ fs : List (Option (List Char)), fs ≠ [] →
    (mainRun fs).exit = 0
    ∧ (mainRun fs).errors = (fs.filter Option.isNone).length
    ∧ (mainRun fs).migrated
        = ((fs.filterMap id).filter (fun c => (migrateFile c).writeBack)).length := by
  intro fs h
  simp only [mainRun, if_neg h]
  simp [mainLoop_spec]

/-- Witness for C4 (amended): the single-missing-file invocation has exit
status zero, one error and no migrated file. -/
theorem C4_driver_behavior_witness :
    (mainRun [Option.none]).exit = 0
    ∧ (mainRun [Option.none]).errors
        = (([Option.none] : List (Option (List Char))).filter Option.isNone).length
    ∧ (mainRun [Option.none]).migrated
        = ((([Option.none] : List (Option (List Char))).filterMap id).filter
            (fun c => (migrateFile c).writeBack)).length :=
  C4_driver_behavior [Option.none] (by decide)

/-- Counterexample to claim C8 as stated: a file with the anyhow anchor and no
implementation blocks gets the import inserted into the in-memory buffer, so
the final buffer differs from the original, yet the file is not written. -/
theorem C8_write_iff_changed_cex :
    (migrateFile srcNoImpl.data).writeBack = false
    ∧ (migrateFile srcNoImpl.data).content ≠ srcNoImpl.data :=
  ⟨by decide, ne_of_beq_false (by rfl)⟩

/-- Claim C8 (amended): for files with at least one located match, the file is
written back exactly when the final buffer differs from the original; a file
with no located matches is never written, even when the import-insertion step
changed the buffer. -/
theorem C8_write_iff_changed : ∀ c : List Char,
    (findMatches (step1 c) ≠ [] →
      ((migrateFile c).writeBack = true ↔ (migrateFile c).content ≠ c))
    ∧ (findMatches (step1 c) = [] → (migrateFile c).writeBack = false) := by
  intro c
  constructor
  · intro hne
    have hE : (findMatches (step1 c)).isEmpty = false := by
      cases hm : findMatches (step1 c) with
      | nil => exact absurd hm hne
      | cons a t => rfl
    simp only [migrateFile, hE, Bool.false_eq_true, if_false]
    split
    · next hc =>
      have h1 := eq_of_beq hc
      exact iff_of_false (by simp) (fun hx => hx h1)
    · next hc =>
      have h1 := ne_of_beq_false (Bool.eq_false_iff.mpr (fun hx => hc hx))
      exact iff_of_true rfl h1
  · intro he
    have hE : (findMatches (step1 c)).isEmpty = true := by rw [he]; rfl
    simp [migrateFile, hE]

/-- Witness for C8 (amended): the write-iff-changed equivalence at srcFoo,
which has one located match, and the never-written fact at srcNoImpl, which
has none. -/
theorem C8_write_iff_changed_witness :
    ((migrateFile srcFoo.data).writeBack = true
      ↔ (migrateFile srcFoo.data).content ≠ srcFoo.data)
    ∧ (migrateFile srcNoImpl.data).writeBack = false :=
  ⟨(C8_write_iff_changed srcFoo.data).1 (by decide),
   (C8_write_iff_changed srcNoImpl.data).2 (by decide)⟩

/-- Counterexample to claim C5 as stated: in the srcFoo migration there is no
two-line banner between the blank line and the retained original block — the
text standing there is uniquely determined and has three lines. -/
theorem C5_two_line_banner_cex :
    ¬ ∃ b : List Char, countNl b = 2
      ∧ modifiedImplOf fooName indentFoo codeFoo origImplFoo
          = asyncImplOf fooName origImplFoo ++ "\n\n".data ++ b
            ++ replaceAll codeFoo (fallbackLine indentFoo) origImplFoo := by
  rintro ⟨b, hb, heq⟩
  have h0 : modifiedImplOf fooName indentFoo codeFoo origImplFoo
      = asyncImplOf fooName origImplFoo ++ "\n\n".data ++ deprecationBanner
        ++ replaceAll codeFoo (fallbackLine indentFoo) origImplFoo := rfl
  rw [h0] at heq
  have h1 := List.append_cancel_right heq
  have h2 := List.append_cancel_left h1
  rw [← h2] at hb
  exact absurd hb (by decide)

/-- Claim C5 (amended): the replacement span consists of the synthesized
asynchronous block, a blank line, a fixed three-line banner (two deprecation
comment lines and an allow-deprecated attribute line), then the original
block with its tag-extraction statement swapped for the local-fallback
statement with its trailing comment; in the srcFoo run the synthesized block
is spliced at the original span and its header appears at offset 80, strictly
before the retained original header at offset 1089. -/
theorem C5_replacement_layout :
    (∀ n i cd o : List Char, modifiedImplOf n i cd o
        = asyncImplOf n o ++ "\n\n".data ++ deprecationBanner
          ++ replaceAll cd (fallbackLine i) o)
    ∧ countNl deprecationBanner = 3
    ∧ deprecationBanner
        = "// Temporary: Keep old sync implementation for compatibility during migration\n// This will be removed once all normalizers are migrated and query_resources is updated\n".data
          ++ "#[allow(deprecated)]\n".data
    ∧ processOne c1Foo mFoo
        = (splice c2Foo 80 (80 + 753)
            (modifiedImplOf fooName indentFoo codeFoo origImplFoo),
           Note.migratedOk fooName)
    ∧ firstOccIdx (asyncHeaderOf fooName) fooRun1.content = some 80
    ∧ firstOccIdx (implNeedle fooName) fooRun1.content = some 1089
    ∧ (80 : Nat) < 1089 := by
  refine ⟨fun n i cd o => rfl, by decide, by decide, ?_, by rfl, by rfl, by decide⟩
  have h1 : (processOne c1Foo mFoo).1
      = splice c2Foo 80 (80 + 753)
          (modifiedImplOf fooName indentFoo codeFoo origImplFoo) :=
    eq_of_beq (by rfl)
  have h2 : (processOne c1Foo mFoo).2 = Note.migratedOk fooName := by decide
  exact Prod.ext h1 h2

/-- Claim C9: when the async_trait import is absent it is inserted adjacent
to the anyhow anchor when that is present, otherwise adjacent to the chrono
anchor when that is present, and not at all when neither anchor exists; the
insertion happens before blocks are located, so the srcNoTags file, whose
only match is skipped, still comes out changed and written with exactly the
inserted line. -/
theorem C9_import_insertion :
    (∀ c : List Char, containsSub asyncImportLine c = false →
      containsSub anyhowLine c = true →
      (anyhowLine ++ "\n".data ++ asyncImportLine) <:+: step1 c)
    ∧ (∀ c : List Char, containsSub asyncImportLine c = false →
      containsSub anyhowLine c = false →
      containsSub chronoLine c = true →
      (asyncImportLine ++ "\n".data ++ chronoLine) <:+: step1 c)
    ∧ (∀ c : List Char, containsSub asyncImportLine c = false →
      containsSub anyhowLine c = false →
      containsSub chronoLine c = false → step1 c = c)
    ∧ (migrateFile srcNoTags.data).content = step1 srcNoTags.data
    ∧ step1 srcNoTags.data ≠ srcNoTags.data
    ∧ (migrateFile srcNoTags.data).writeBack = true
    ∧ (migrateFile srcNoTags.data).notes = [Note.warnNoTags fooName]
    ∧ countMigrated (migrateFile srcNoTags.data).notes = 0 := by
  refine ⟨?_, ?_, ?_, eq_of_beq (by rfl), ne_of_beq_false (by rfl),
    by decide, by decide, by decide⟩
  · intro c h1 h2
    simp only [step1, h1, h2, Bool.false_eq_true, if_false, if_true]
    obtain ⟨i, hi⟩ := Option.isSome_iff_exists.mp h2
    obtain ⟨pre, post, hp⟩ :=
      replaceAll_has_new anyhowLine (anyhowLine ++ "\n".data ++ asyncImportLine) c i
        (by decide) hi
    exact ⟨pre, post, hp.symm⟩
  · intro c h1 h2 h3
    simp only [step1, h1, h2, h3, Bool.false_eq_true, if_false, if_true]
    obtain ⟨i, hi⟩ := Option.isSome_iff_exists.mp h3
    obtain ⟨pre, post, hp⟩ :=
      replaceAll_has_new chronoLine (asyncImportLine ++ "\n".data ++ chronoLine) c i
        (by decide) hi
    exact ⟨pre, post, hp.symm⟩
  · intro c h1 h2 h3
    simp only [step1, h1, h2, h3, Bool.false_eq_true, if_false]

/-- Witness for C9: for the srcNoTags file, whose anchor is the anyhow
line, the inserted line stands adjacent to it in the step-1 output. -/
theorem C9_import_insertion_witness :
    (anyhowLine ++ "\n".data ++ asyncImportLine) <:+: step1 srcNoTags.data :=
  C9_import_insertion.1 srcNoTags.data (by rfl) (by rfl)

/-- Claim C10: the searches for the normalize signature, the tag-extraction
statement and the type-tag literal are confined to the 5000-character window
starting at the implementation header; a block whose required fragment lies
beyond that window is skipped as a structural mismatch even when the fragment
exists later in the block, as in the farType file whose resource_type
accessor sits past the window yet is present in the full text. -/
theorem C10_window_confinement :
    (∀ (c : List Char) (m : MatchInfo),
      searchPat matchNormalizeSig (implWindow c m.start) = none →
      processOne c m = (c, Note.warnNoNormalize m.mname))
    ∧ (∀ (c : List Char) (m : MatchInfo) (tS tL : Nat) (ind : List Char)
        (p : Nat) (rid : List Char),
      (searchPat matchNormalizeSig (implWindow c m.start)).isSome = true →
      searchPat matchTagsAt (implWindow c m.start) = some (tS, tL, ind) →
      searchPat matchIdAt ((c.take (m.start + tS)).drop m.start) = some (p, rid) →
      searchPat matchTypeAt (implWindow c m.start) = none →
      processOne c m = (c, Note.warnNoType m.mname))
    ∧ (searchPat matchTypeAt farType).isSome = true
    ∧ searchPat matchTypeAt (implWindow farType 0) = none
    ∧ migrateFile farType
        = ⟨farType, false, [Note.warnNoType fooName], Report.noChangesNeeded⟩ := by
  have hpa : ∀ (c : List Char) (m : MatchInfo),
      searchPat matchNormalizeSig (implWindow c m.start) = none →
      processOne c m = (c, Note.warnNoNormalize m.mname) := by
    intro c m h
    unfold processOne
    rw [h]
  have hpb : ∀ (c : List Char) (m : MatchInfo) (tS tL : Nat) (ind : List Char)
      (p : Nat) (rid : List Char),
      (searchPat matchNormalizeSig (implWindow c m.start)).isSome = true →
      searchPat matchTagsAt (implWindow c m.start) = some (tS, tL, ind) →
      searchPat matchIdAt ((c.take (m.start + tS)).drop m.start) = some (p, rid) →
      searchPat matchTypeAt (implWindow c m.start) = none →
      processOne c m = (c, Note.warnNoType m.mname) := by
    intro c m tS tL ind p rid h1 h2 h3 h4
    obtain ⟨x, hx⟩ := Option.isSome_iff_exists.mp h1
    unfold processOne
    simp only [hx, h2, h3, h4]
  refine ⟨hpa, hpb, by rfl, Option.isNone_iff_eq_none.mp (by rfl), ?_⟩
  have e1 : containsSub asyncImportLine farType = false := by rfl
  have e2 : containsSub anyhowLine farType = false := by rfl
  have e3 : containsSub chronoLine farType = false := by rfl
  have hs1 : step1 farType = farType := by
    simp only [step1, e1, e2, e3, Bool.false_eq_true, if_false]
  have f4 : findScan farType 0 = some (0, fooName, 43, farType.drop 43) := by rfl
  have f5b : findScan (farType.drop 43) 43 = none :=
    Option.isNone_iff_eq_none.mp (by rfl)
  have hfm : findMatches farType = [⟨0, fooName⟩] := by
    rw [findMatches,
      findAux_step farType farType 0 0 fooName 43 (farType.drop 43) (by decide) f4,
      findAux_none _ _ _ f5b]
  have g1 : (searchPat matchNormalizeSig (implWindow farType 0)).isSome = true := by rfl
  have g2 : searchPat matchTagsAt (implWindow farType 0)
      = some (282, 48, "\n        ".data) := by rfl
  have g3 : searchPat matchIdAt ((farType.take (0 + 282)).drop 0)
      = some (244, "foo_id".data) := by rfl
  have g4 : searchPat matchTypeAt (implWindow farType 0) = none :=
    Option.isNone_iff_eq_none.mp (by rfl)
  have hpo : processOne farType ⟨0, fooName⟩ = (farType, Note.warnNoType fooName) :=
    hpb farType ⟨0, fooName⟩ 282 48 "\n        ".data 244 "foo_id".data g1 g2 g3 g4
  have hbeq : (farType == farType) = true := beq_self_eq_true farType
  simp only [migrateFile, hs1, hfm, List.isEmpty_cons, Bool.false_eq_true, if_false,
    List.reverse_cons, List.reverse_nil, List.nil_append, List.foldl_cons,
    List.foldl_nil, stepFold, hpo, List.nil_append, hbeq, if_true]

/-- Witness for C10: the empty buffer is skipped for a missing normalize
signature, and the srcW10 buffer, whose window search for the type-tag
accessor fails, is skipped as a type mismatch with the buffer unchanged. -/
theorem C10_window_confinement_witness :
    processOne [] ⟨0, fooName⟩ = ([], Note.warnNoNormalize fooName)
    ∧ processOne srcW10.data ⟨0, fooName⟩ = (srcW10.data, Note.warnNoType fooName) :=
  ⟨C10_window_confinement.1 [] ⟨0, fooName⟩ (by rfl),
   C10_window_confinement.2.1 srcW10.data ⟨0, fooName⟩ 168 41 "\n ".data
     144 "qq_id".data (by rfl) (by rfl) (by rfl) (by rfl)⟩
